import Mathlib

/-!
Verification of the core of a client-side vocabulary learning application
(Spanish and English). The embedding follows the Rust sources:

* `src/data/mod.rs`      — content loader (`load_vocabulary_stage`,
  `get_card_pair`, `get_stage_card_count`, `LearningDirection`,
  `VocabularyCard`);
* `src/core/favorites.rs` — favorites registry (`toggle`, `is_favorite`,
  `get_all`, `remove`, `count` over a `HashSet<(u32, u32)>`);
* `src/pages/vocabulary_cards.rs` — stage cards controller (direction from
  the URL query, card cursor, reveal flags, stage-change effect);
* `src/pages/favorites.rs` — favorites view (working-list filter and sort,
  current-card derivation, toggle-on-displayed-card step).

The curated JSON vocabulary content under `translations/` is a static
external input of the program (it is bundled at build time and is not part
of the core).  The development is therefore parametric in a
`corpus : Nat → String → List VocabularyCard` giving the parsed content of
each embedded document; a successful build has well-formed JSON, so the
serde parse step of `load_vocabulary_stage` is modelled as succeeding.
-/

namespace Vamos

/-- A vocabulary card, from `struct VocabularyCard` in `src/data/mod.rs`.
The Rust field `example` is rendered `exampleSentence` because `example` is
a reserved word of Lean. -/
structure VocabularyCard where
  id : Nat
  word : String
  exampleSentence : String
  deriving DecidableEq, Repr

/-- Learning direction, from `enum LearningDirection` in `src/data/mod.rs`. -/
inductive LearningDirection where
  | SpanishToEnglish
  | EnglishToSpanish
  deriving DecidableEq, Repr

/-- The number of values of the `usize` type (the app is built for a 32-bit
wasm target, so `usize` arithmetic is arithmetic modulo `2 ^ 32`). -/
def USIZE : Nat := 4294967296

/-- Embedding of `load_vocabulary_stage` (`src/data/mod.rs`).  The Rust
function matches on `(stage, language)` with one arm per embedded document,
`(1, "es")` through `(21, "en")`, returning the parsed document, and falls
through to the formatted not-found error otherwise.  The 42 arms are
collapsed into the equivalent range test; the parsed content of the
document selected by an arm is `corpus stage language`. -/
def loadVocabularyStage (corpus : Nat → String → List VocabularyCard)
    (stage : Nat) (language : String) : Except String (List VocabularyCard) :=
  if 1 ≤ stage ∧ stage ≤ 21 ∧ (language = "es" ∨ language = "en") then
    .ok (corpus stage language)
  else
    .error ("Stage " ++ toString stage ++ " for language " ++ language ++ " not found")

/-- Embedding of `get_card_pair` (`src/data/mod.rs`).  The two `?` operators
become explicit matches propagating the error; the bounds check and the
direction match follow the source line by line. -/
def getCardPair (corpus : Nat → String → List VocabularyCard)
    (stage : Nat) (cardIndex : Nat) (direction : LearningDirection) :
    Except String (VocabularyCard × VocabularyCard) :=
  match loadVocabularyStage corpus stage "es" with
  | .error e => .error e
  | .ok spanishCards =>
    match loadVocabularyStage corpus stage "en" with
    | .error e => .error e
    | .ok englishCards =>
      if h : spanishCards.length ≤ cardIndex ∨ englishCards.length ≤ cardIndex then
        .error "Card index out of bounds"
      else
        match direction with
        | .SpanishToEnglish =>
          .ok (spanishCards.get ⟨cardIndex, by omega⟩,
               englishCards.get ⟨cardIndex, by omega⟩)
        | .EnglishToSpanish =>
          .ok (englishCards.get ⟨cardIndex, by omega⟩,
               spanishCards.get ⟨cardIndex, by omega⟩)

/-- Embedding of `get_stage_card_count` (`src/data/mod.rs`). -/
def getStageCardCount (corpus : Nat → String → List VocabularyCard)
    (stage : Nat) : Except String Nat :=
  match loadVocabularyStage corpus stage "es" with
  | .error e => .error e
  | .ok cards => .ok cards.length

/-! Favorites registry (`src/core/favorites.rs`)

The registry is a `HashSet<(u32, u32)>`.  It is modelled by the list of its
elements in iteration order (an arbitrary order); all statements below are
order-independent.  `HashSet::insert` is modelled as consing the key,
`HashSet::remove` as filtering the key out. -/

/-- Embedding of `FavoritesContext::toggle`. -/
def toggle (favs : List (Nat × Nat)) (stage cardId : Nat) : List (Nat × Nat) :=
  let key : Nat × Nat := (stage, cardId)
  if key ∈ favs then
    favs.filter (fun p => decide (p ≠ key))
  else
    key :: favs

/-- Embedding of `FavoritesContext::is_favorite`. -/
def isFavorite (favs : List (Nat × Nat)) (stage cardId : Nat) : Bool :=
  decide ((stage, cardId) ∈ favs)

/-- Embedding of `FavoritesContext::get_all` (a snapshot of the set in
iteration order). -/
def getAll (favs : List (Nat × Nat)) : List (Nat × Nat) :=
  favs

/-- Embedding of `FavoritesContext::remove`. -/
def remove (favs : List (Nat × Nat)) (stage cardId : Nat) : List (Nat × Nat) :=
  favs.filter (fun p => decide (p ≠ (stage, cardId)))

/-- Embedding of `FavoritesContext::count`. -/
def favoritesCount (favs : List (Nat × Nat)) : Nat :=
  favs.length

/-! Stage cards controller (`src/pages/vocabulary_cards.rs`) -/

/-- Embedding of the `direction` closure of `VocabularyCards`: the value of
the `dir` URL query parameter (or `none` when absent) determines the
learning direction. -/
def direction (dirParam : Option String) : LearningDirection :=
  match dirParam with
  | some d => if d = "en-to-es" then .EnglishToSpanish else .SpanishToEnglish
  | none => .SpanishToEnglish

/-- The reactive state of the stage cards controller: `card_count`,
`card_index`, `show_example`, `show_translation`. -/
structure CardsState where
  count : Nat
  index : Nat
  showExample : Bool
  showTranslation : Bool
  deriving DecidableEq, Repr

/-- Embedding of the `go_next` closure of `VocabularyCards`.  `usize`
subtraction and addition wrap modulo `USIZE`. -/
def goNext (s : CardsState) : CardsState :=
  if s.index < (s.count + (USIZE - 1)) % USIZE then
    ⟨s.count, (s.index + 1) % USIZE, false, false⟩
  else
    s

/-- Embedding of the `go_prev` closure of `VocabularyCards`. -/
def goPrev (s : CardsState) : CardsState :=
  if 0 < s.index then
    ⟨s.count, (s.index + (USIZE - 1)) % USIZE, false, false⟩
  else
    s

/-- A user navigation event on the stage cards view. -/
inductive NavOp where
  | next
  | prev
  deriving DecidableEq, Repr

/-- One navigation event applied to the controller state. -/
def navStep (s : CardsState) : NavOp → CardsState
  | .next => goNext s
  | .prev => goPrev s

/-- A whole interactive sequence of navigation events. -/
def navRun (s : CardsState) : List NavOp → CardsState
  | [] => s
  | op :: ops => navRun (navStep s op) ops

/-- Embedding of the `Effect` of `VocabularyCards` that runs on mount and
whenever the stage changes: `if let Ok(count) = get_stage_card_count(stage)`
the count is stored and index and reveal flags are reset; otherwise the
state is left untouched. -/
def stageChangeEffect (corpus : Nat → String → List VocabularyCard)
    (stage : Nat) (s : CardsState) : CardsState :=
  match getStageCardCount corpus stage with
  | .ok n => ⟨n, 0, false, false⟩
  | .error _ => s

/-! Favorites view (`src/pages/favorites.rs`) -/

/-- Embedding of the filter closure inside `favorite_cards`: stage 1 keeps
IDs 1–20, stage 2 keeps IDs 21–40, stage 3 keeps IDs 41–60, and every other
stage is rejected. -/
def validBlock (stage cardId : Nat) : Bool :=
  match stage with
  | 1 => decide (1 ≤ cardId ∧ cardId ≤ 20)
  | 2 => decide (21 ≤ cardId ∧ cardId ≤ 40)
  | 3 => decide (41 ≤ cardId ∧ cardId ≤ 60)
  | _ => false

/-- The block-of-20 rule exactly as the specification words it: an entry
`(S, id)` is kept when `(S − 1)·20 + 1 ≤ id ≤ S·20` for a known stage
`S ∈ [1..21]`.  This definition follows the specification, for comparison
with `validBlock`, which follows the source. -/
def validBlockSpec (stage cardId : Nat) : Bool :=
  decide (1 ≤ stage ∧ stage ≤ 21 ∧ (stage - 1) * 20 + 1 ≤ cardId ∧ cardId ≤ stage * 20)

/-- Embedding of the `favorite_cards` closure: snapshot the registry, keep
the entries accepted by the filter, and sort by card id ascending.  Rust
`sort_by_key` is a stable sort by the key; it is modelled by the stable
`List.insertionSort` on the key order. -/
def favoriteCards (favs : List (Nat × Nat)) : List (Nat × Nat) :=
  List.insertionSort (fun a b => a.2 ≤ b.2)
    ((getAll favs).filter (fun p => validBlock p.1 p.2))

/-- The favorites view shows the empty-state pane exactly when the working
list is empty (`if cards.is_empty()` in the view body). -/
def favoritesEmptyPane (favs : List (Nat × Nat)) : Bool :=
  (favoriteCards favs).isEmpty

/-- Embedding of the stage-relative index computation inside the
`current_card` closure: the match on the stage with an `Invalid stage`
early return on the default arm. -/
def favoritesCardIdx (stage cardId : Nat) : Except String Nat :=
  match stage with
  | 1 => .ok (cardId - 1)
  | 2 => .ok (cardId - 21)
  | 3 => .ok (cardId - 41)
  | _ => .error "Invalid stage"

/-- Embedding of the `current_card` closure of the favorites view: guard
against an empty or exhausted working list, derive the stage-relative
index, and fetch the pair with the hard-coded `SpanishToEnglish`
direction. -/
def favoritesCurrentCard (corpus : Nat → String → List VocabularyCard)
    (favs : List (Nat × Nat)) (cardIndex : Nat) :
    Except String (Nat × VocabularyCard × VocabularyCard) :=
  let cards := favoriteCards favs
  if h : cards.isEmpty ∨ cards.length ≤ cardIndex then
    .error "No favorites available"
  else
    let p := cards.get ⟨cardIndex, Nat.not_le.mp (fun hle => h (Or.inr hle))⟩
    match favoritesCardIdx p.1 p.2 with
    | .error e => .error e
    | .ok idx =>
      match getCardPair corpus p.1 idx .SpanishToEnglish with
      | .error e => .error e
      | .ok q => .ok (p.1, q.1, q.2)

/-- The `current_card` computation as the specification words it: identical
to `favoritesCurrentCard` except that the direction is the one taken from
the URL query, as in the stage cards view.  This definition follows the
specification, for comparison with `favoritesCurrentCard`, which follows
the source. -/
def favoritesCurrentCardSpec (corpus : Nat → String → List VocabularyCard)
    (favs : List (Nat × Nat)) (cardIndex : Nat) (d : LearningDirection) :
    Except String (Nat × VocabularyCard × VocabularyCard) :=
  let cards := favoriteCards favs
  if h : cards.isEmpty ∨ cards.length ≤ cardIndex then
    .error "No favorites available"
  else
    let p := cards.get ⟨cardIndex, Nat.not_le.mp (fun hle => h (Or.inr hle))⟩
    match favoritesCardIdx p.1 p.2 with
    | .error e => .error e
    | .ok idx =>
      match getCardPair corpus p.1 idx d with
      | .error e => .error e
      | .ok q => .ok (p.1, q.1, q.2)

/-- The reactive state of the favorites view: the registry content plus
`card_index`, `show_example`, `show_translation`. -/
structure FavoritesViewState where
  favs : List (Nat × Nat)
  index : Nat
  showExample : Bool
  showTranslation : Bool
  deriving DecidableEq, Repr

/-- Embedding of the `toggle_favorite` closure of the favorites view:
if a card is displayed at the cursor, toggle it in the registry, then
re-read the working list; an empty new list resets the index to 0, an
exhausted cursor is clamped to the last position, and both reveal flags
are cleared. -/
def toggleFavoriteStep (s : FavoritesViewState) : FavoritesViewState :=
  let cards := favoriteCards s.favs
  match cards[s.index]? with
  | none => s
  | some p =>
    let favs2 := toggle s.favs p.1 p.2
    let newCount := (favoriteCards favs2).length
    ⟨favs2,
      if newCount = 0 then 0
      else if newCount ≤ s.index then newCount - 1
      else s.index,
      false, false⟩

/-! Concrete sample data for witnesses -/

/-- A concrete Spanish card. -/
def sampleEs : VocabularyCard :=
  ⟨1, "hola", "Hola, amigo."⟩

/-- A concrete English card. -/
def sampleEn : VocabularyCard :=
  ⟨1, "hello", "Hello, friend."⟩

/-- A concrete one-card-per-stage corpus. -/
def sampleCorpus : Nat → String → List VocabularyCard :=
  fun _ language => if language = "es" then [sampleEs] else [sampleEn]

/-! Helper lemmas -/

lemma load_es_ok (corpus : Nat → String → List VocabularyCard) (stage : Nat)
    (h1 : 1 ≤ stage) (h2 : stage ≤ 21) :
    loadVocabularyStage corpus stage "es" = .ok (corpus stage "es") := by
  simp [loadVocabularyStage, h1, h2]

lemma load_en_ok (corpus : Nat → String → List VocabularyCard) (stage : Nat)
    (h1 : 1 ≤ stage) (h2 : stage ≤ 21) :
    loadVocabularyStage corpus stage "en" = .ok (corpus stage "en") := by
  simp [loadVocabularyStage, h1, h2]

lemma load_invalid (corpus : Nat → String → List VocabularyCard) (stage : Nat)
    (language : String) (h : ¬ (1 ≤ stage ∧ stage ≤ 21)) :
    loadVocabularyStage corpus stage language =
      .error ("Stage " ++ toString stage ++ " for language " ++ language ++ " not found") := by
  rw [loadVocabularyStage, if_neg]
  tauto

lemma stage_message_ne (x y z w : String) :
    "Stage " ++ x ++ y ++ z ++ w ≠ "Card index out of bounds" := by
  intro h
  have h2 := congrArg String.data h
  simp [String.data_append] at h2

lemma mem_toggle (favs : List (Nat × Nat)) (stage cardId : Nat) (p : Nat × Nat) :
    p ∈ toggle favs stage cardId ↔
      (if (stage, cardId) ∈ favs then p ∈ favs ∧ p ≠ (stage, cardId)
       else p = (stage, cardId) ∨ p ∈ favs) := by
  unfold toggle
  by_cases h : (stage, cardId) ∈ favs
  · simp [h, List.mem_filter]
  · simp [h]

lemma mem_favoriteCards (favs : List (Nat × Nat)) (p : Nat × Nat) :
    p ∈ favoriteCards favs ↔ p ∈ favs ∧ validBlock p.1 p.2 = true := by
  simp [favoriteCards, getAll, List.mem_insertionSort, List.mem_filter]

/-! Claims -/

/-- C8: for every registry state and every pair (S, id), applying
`toggle (S, id)` twice returns the favorites registry to its prior
membership state; a single toggle inserts the pair when absent and removes
it when present (and changes the membership of no other pair). -/
theorem toggle_membership_spec (favs : List (Nat × Nat)) (stage cardId : Nat)
    (p : Nat × Nat) :
    (p ∈ toggle (toggle favs stage cardId) stage cardId ↔ p ∈ favs)
    ∧ ((stage, cardId) ∉ favs → (stage, cardId) ∈ toggle favs stage cardId)
    ∧ ((stage, cardId) ∈ favs → (stage, cardId) ∉ toggle favs stage cardId)
    ∧ (p ≠ (stage, cardId) → (p ∈ toggle favs stage cardId ↔ p ∈ favs)) := by
  by_cases h : (stage, cardId) ∈ favs
  · have hnot : (stage, cardId) ∉ toggle favs stage cardId := by
      rw [mem_toggle]
      simp [h]
    refine ⟨?_, fun hc => absurd h hc, fun _ => hnot, fun hp => ?_⟩
    · rw [mem_toggle, if_neg hnot, mem_toggle, if_pos h]
      by_cases hp : p = (stage, cardId) <;> simp [hp, h]
    · rw [mem_toggle, if_pos h]
      simp [hp]
  · have hmem : (stage, cardId) ∈ toggle favs stage cardId := by
      rw [mem_toggle]
      simp [h]
    refine ⟨?_, fun _ => hmem, fun hc => absurd hc h, fun hp => ?_⟩
    · rw [mem_toggle, if_pos hmem, mem_toggle, if_neg h]
      by_cases hp : p = (stage, cardId) <;> simp [hp, h]
    · rw [mem_toggle, if_neg h]
      simp [hp]

/-- Concrete instantiation of `toggle_membership_spec`. -/
theorem toggle_membership_spec_witness :
    (1, 1) ∈ toggle [] 1 1 ∧ ((1, 1) ∈ toggle (toggle [] 1 1) 1 1 ↔ (1, 1) ∈ ([] : List (Nat × Nat))) :=
  ⟨(toggle_membership_spec [] 1 1 (1, 1)).2.1 (by simp),
   (toggle_membership_spec [] 1 1 (1, 1)).1⟩

/-- C9: for every registry state and every pair (S, id), `remove (S, id)`
yields the registry with (S, id) removed; when (S, id) is absent it is a
no-op leaving the registry unchanged (the operation is total and never
fails). -/
theorem remove_spec (favs : List (Nat × Nat)) (stage cardId : Nat) :
    (∀ p, p ∈ remove favs stage cardId ↔ p ∈ favs ∧ p ≠ (stage, cardId))
    ∧ ((stage, cardId) ∉ favs → remove favs stage cardId = favs) := by
  constructor
  · intro p
    simp [remove, List.mem_filter]
  · intro h
    rw [remove, List.filter_eq_self.mpr]
    intro a ha
    simp only [decide_eq_true_eq]
    intro he
    exact h (he ▸ ha)

/-- Concrete instantiation of `remove_spec`. -/
theorem remove_spec_witness :
    remove [(1, 2)] 3 4 = [(1, 2)] ∧ (1, 2) ∉ remove [(1, 2)] 1 2 :=
  ⟨(remove_spec [(1, 2)] 3 4).2 (by simp),
   fun h => ((remove_spec [(1, 2)] 1 2).1 (1, 2)).mp h |>.2 rfl⟩

/-- C10: every registry entry (S, id) accepted by the working-list filter
satisfies (S − 1)·20 + 1 ≤ id, so the stage-relative index derivation in
`current_card` cannot underflow; it yields exactly id − ((S − 1)·20 + 1),
an index in [0, 19]. -/
theorem favorites_cardIdx_safe (stage cardId : Nat)
    (h : validBlock stage cardId = true) :
    (stage - 1) * 20 + 1 ≤ cardId
    ∧ favoritesCardIdx stage cardId = .ok (cardId - ((stage - 1) * 20 + 1))
    ∧ cardId - ((stage - 1) * 20 + 1) ≤ 19 := by
  match stage with
  | 0 => simp [validBlock] at h
  | 1 =>
    simp only [validBlock, decide_eq_true_eq] at h
    refine ⟨by omega, ?_, by omega⟩
    simp [favoritesCardIdx]
  | 2 =>
    simp only [validBlock, decide_eq_true_eq] at h
    refine ⟨by omega, ?_, by omega⟩
    simp [favoritesCardIdx]
  | 3 =>
    simp only [validBlock, decide_eq_true_eq] at h
    refine ⟨by omega, ?_, by omega⟩
    simp [favoritesCardIdx]
  | n + 4 => simp [validBlock] at h

lemma navStep_inv (c : Nat) (hc : 0 < c) (hcw : c < USIZE) (t : CardsState) (op : NavOp)
    (h1 : t.count = c) (h2 : t.index < c) :
    (navStep t op).count = c ∧ (navStep t op).index < c := by
  have hU : USIZE = 4294967296 := rfl
  rw [hU] at hcw
  cases op
  · simp only [navStep, goNext]
    by_cases hlt : t.index < (t.count + (USIZE - 1)) % USIZE
    · rw [if_pos hlt]
      refine ⟨h1, ?_⟩
      show (t.index + 1) % USIZE < c
      rw [h1, hU] at hlt
      rw [hU]
      omega
    · rw [if_neg hlt]
      exact ⟨h1, h2⟩
  · simp only [navStep, goPrev]
    by_cases hlt : 0 < t.index
    · rw [if_pos hlt]
      refine ⟨h1, ?_⟩
      show (t.index + (USIZE - 1)) % USIZE < c
      rw [hU]
      omega
    · rw [if_neg hlt]
      exact ⟨h1, h2⟩

/-- C4: starting from index 0 with a positive count, the cursor stays in
[0, count) under every interactive sequence of next and prev events; on any
in-bounds state, next advances the index exactly when index < count − 1
(and is a no-op at count − 1), prev decrements exactly when index > 0 (and
is a no-op at 0), and every transition that changes the index clears both
reveal flags. -/
theorem nav_cursor_bounds (c : Nat) (hc : 0 < c) (hcw : c < USIZE) (ops : List NavOp) :
    ((navRun ⟨c, 0, false, false⟩ ops).count = c
      ∧ (navRun ⟨c, 0, false, false⟩ ops).index < c)
    ∧ (∀ t : CardsState, t.count = c → t.index < c →
        (t.index < c - 1 → goNext t = ⟨c, t.index + 1, false, false⟩)
        ∧ (c - 1 ≤ t.index → goNext t = t)
        ∧ (0 < t.index → goPrev t = ⟨c, t.index - 1, false, false⟩)
        ∧ (t.index = 0 → goPrev t = t)) := by
  have hU : USIZE = 4294967296 := rfl
  have hsub : (c + (USIZE - 1)) % USIZE = c - 1 := by
    rw [hU]
    rw [hU] at hcw
    omega
  constructor
  · have run_inv : ∀ (l : List NavOp) (t : CardsState), t.count = c → t.index < c →
        (navRun t l).count = c ∧ (navRun t l).index < c := by
      intro l
      induction l with
      | nil =>
        intro t h1 h2
        exact ⟨h1, h2⟩
      | cons op ops ih =>
        intro t h1 h2
        have h := navStep_inv c hc hcw t op h1 h2
        exact ih (navStep t op) h.1 h.2
    exact run_inv ops ⟨c, 0, false, false⟩ rfl hc
  · intro t h1 h2
    refine ⟨?_, ?_, ?_, ?_⟩
    · intro hlt
      have hmod : (t.index + 1) % USIZE = t.index + 1 := by
        rw [hU]
        rw [hU] at hcw
        omega
      simp only [goNext]
      rw [h1, hsub, if_pos hlt, hmod]
    · intro hge
      simp only [goNext]
      rw [h1, hsub, if_neg (by omega)]
    · intro hpos
      have hmod : (t.index + (USIZE - 1)) % USIZE = t.index - 1 := by
        rw [hU]
        rw [hU] at hcw
        omega
      simp only [goPrev]
      rw [if_pos hpos, h1, hmod]
    · intro h0
      simp only [goPrev]
      rw [if_neg (by omega)]

/-- Concrete instantiation of `nav_cursor_bounds`. -/
theorem nav_cursor_bounds_witness :
    (navRun ⟨2, 0, false, false⟩ [NavOp.next, NavOp.prev]).index < 2
    ∧ goNext ⟨2, 0, true, true⟩ = ⟨2, 1, false, false⟩ := by
  have h := nav_cursor_bounds 2 (by decide) (by decide) [NavOp.next, NavOp.prev]
  exact ⟨h.1.2, (h.2 ⟨2, 0, true, true⟩ rfl (by decide)).1 (by decide)⟩

/-- C6 (amended): on mount and whenever the stage changes, the effect calls
`getStageCardCount`; when the call succeeds the returned count is stored,
the index is reset to 0 and both reveal flags to false, but when it fails
(stage outside 1..21) the controller state is left entirely unchanged. -/
theorem stageChangeEffect_spec (corpus : Nat → String → List VocabularyCard)
    (stage : Nat) (s : CardsState) :
    (∀ n, getStageCardCount corpus stage = .ok n →
      stageChangeEffect corpus stage s = ⟨n, 0, false, false⟩)
    ∧ (∀ e, getStageCardCount corpus stage = .error e →
      stageChangeEffect corpus stage s = s) := by
  constructor
  · intro n h
    simp [stageChangeEffect, h]
  · intro e h
    simp [stageChangeEffect, h]

/-- Concrete instantiation of `stageChangeEffect_spec`. -/
theorem stageChangeEffect_spec_witness :
    stageChangeEffect sampleCorpus 1 ⟨5, 3, true, true⟩ = ⟨1, 0, false, false⟩ :=
  (stageChangeEffect_spec sampleCorpus 1 ⟨5, 3, true, true⟩).1 1 rfl

/-- Counterexample to C6 as stated: for the invalid stage 22 and a prior
state with index 3 and both reveal flags set, the effect leaves the state
untouched, so the index is not reset to 0 and the flags are not cleared. -/
theorem stageChangeEffect_counterexample :
    stageChangeEffect sampleCorpus 22 ⟨5, 3, true, true⟩ = ⟨5, 3, true, true⟩
    ∧ (stageChangeEffect sampleCorpus 22 ⟨5, 3, true, true⟩).index ≠ 0
    ∧ (stageChangeEffect sampleCorpus 22 ⟨5, 3, true, true⟩).showExample ≠ false := by
  refine ⟨rfl, by decide, by decide⟩

/-- C3: `getCardPair` fails with the out-of-bounds error exactly when both
language lists load successfully and the index reaches the length of the
shorter list; a load failure of either list is propagated unchanged (the
only load failure of the embedded corpus is the not-found error); and on
success the cards at position i of both lists are returned, ordered
source-first per the direction. -/
theorem getCardPair_error_spec (corpus : Nat → String → List VocabularyCard)
    (stage cardIndex : Nat) (d : LearningDirection) :
    (getCardPair corpus stage cardIndex d = .error "Card index out of bounds"
      ↔ ∃ es en, loadVocabularyStage corpus stage "es" = .ok es
          ∧ loadVocabularyStage corpus stage "en" = .ok en
          ∧ min es.length en.length ≤ cardIndex)
    ∧ (∀ e, loadVocabularyStage corpus stage "es" = .error e →
        getCardPair corpus stage cardIndex d = .error e)
    ∧ (∀ es e, loadVocabularyStage corpus stage "es" = .ok es →
        loadVocabularyStage corpus stage "en" = .error e →
        getCardPair corpus stage cardIndex d = .error e)
    ∧ (∀ es en (h1 : loadVocabularyStage corpus stage "es" = .ok es)
        (h2 : loadVocabularyStage corpus stage "en" = .ok en)
        (h3 : cardIndex < es.length) (h4 : cardIndex < en.length),
        getCardPair corpus stage cardIndex d =
          .ok (match d with
            | .SpanishToEnglish => (es.get ⟨cardIndex, h3⟩, en.get ⟨cardIndex, h4⟩)
            | .EnglishToSpanish => (en.get ⟨cardIndex, h4⟩, es.get ⟨cardIndex, h3⟩))) := by
  by_cases hv : 1 ≤ stage ∧ stage ≤ 21
  · have hes := load_es_ok corpus stage hv.1 hv.2
    have hen := load_en_ok corpus stage hv.1 hv.2
    by_cases hb : (corpus stage "es").length ≤ cardIndex ∨ (corpus stage "en").length ≤ cardIndex
    · refine ⟨?_, ?_, ?_, ?_⟩
      · constructor
        · intro _
          exact ⟨_, _, hes, hen, by omega⟩
        · intro _
          simp only [getCardPair, hes, hen]
          rw [dif_pos hb]
      · intro e he
        rw [hes] at he
        simp at he
      · intro es e h1 h2
        rw [hen] at h2
        simp at h2
      · intro es en h1 h2 h3 h4
        rw [hes] at h1
        rw [hen] at h2
        injection h1 with h1
        injection h2 with h2
        subst h1
        subst h2
        exfalso
        omega
    · refine ⟨?_, ?_, ?_, ?_⟩
      · constructor
        · intro h
          simp only [getCardPair, hes, hen] at h
          rw [dif_neg hb] at h
          cases d <;> simp at h
        · rintro ⟨es, en, h1, h2, hmin⟩
          rw [hes] at h1
          rw [hen] at h2
          injection h1 with h1
          injection h2 with h2
          subst h1
          subst h2
          exfalso
          omega
      · intro e he
        rw [hes] at he
        simp at he
      · intro es e h1 h2
        rw [hen] at h2
        simp at h2
      · intro es en h1 h2 h3 h4
        rw [hes] at h1
        rw [hen] at h2
        injection h1 with h1
        injection h2 with h2
        subst h1
        subst h2
        simp only [getCardPair, hes, hen]
        rw [dif_neg hb]
        cases d <;> rfl
  · have hes := load_invalid corpus stage "es" hv
    have hen := load_invalid corpus stage "en" hv
    refine ⟨?_, ?_, ?_, ?_⟩
    · constructor
      · intro h
        simp only [getCardPair, hes] at h
        exact absurd (Except.error.inj h) (stage_message_ne _ _ _ _)
      · rintro ⟨es, en, h1, h2, _⟩
        rw [hes] at h1
        simp at h1
    · intro e he
      rw [hes] at he
      injection he with he
      simp only [getCardPair, hes]
      rw [he]
    · intro es e h1 h2
      rw [hes] at h1
      simp at h1
    · intro es en h1 h2 h3 h4
      rw [hes] at h1
      simp at h1

/-- Concrete instantiation of `getCardPair_error_spec`. -/
theorem getCardPair_error_spec_witness :
    getCardPair sampleCorpus 1 0 LearningDirection.SpanishToEnglish = .ok (sampleEs, sampleEn) := by
  have h := (getCardPair_error_spec sampleCorpus 1 0 LearningDirection.SpanishToEnglish).2.2.2
    [sampleEs] [sampleEn] rfl rfl (by decide) (by decide)
  simpa using h

/-- C5: for every valid stage and index, reversing the direction swaps the
order of the returned pair but not the identity of the two cards. -/
theorem getCardPair_direction_swap (corpus : Nat → String → List VocabularyCard)
    (stage i : Nat) (a b a2 b2 : VocabularyCard)
    (h1 : getCardPair corpus stage i .SpanishToEnglish = .ok (a, b))
    (h2 : getCardPair corpus stage i .EnglishToSpanish = .ok (b2, a2)) :
    a = a2 ∧ b = b2 := by
  by_cases hv : 1 ≤ stage ∧ stage ≤ 21
  · have hes := load_es_ok corpus stage hv.1 hv.2
    have hen := load_en_ok corpus stage hv.1 hv.2
    simp only [getCardPair, hes, hen] at h1 h2
    by_cases hb : (corpus stage "es").length ≤ i ∨ (corpus stage "en").length ≤ i
    · rw [dif_pos hb] at h1
      simp at h1
    · rw [dif_neg hb] at h1 h2
      simp only [Except.ok.injEq, Prod.mk.injEq] at h1 h2
      constructor
      · rw [← h1.1, ← h2.2]
      · rw [← h1.2, ← h2.1]
  · have hes := load_invalid corpus stage "es" hv
    simp only [getCardPair, hes] at h1
    simp at h1

/-- Concrete instantiation of `getCardPair_direction_swap`. -/
theorem getCardPair_direction_swap_witness :
    sampleEs = sampleEs ∧ sampleEn = sampleEn :=
  getCardPair_direction_swap sampleCorpus 1 0 sampleEs sampleEn sampleEs sampleEn rfl rfl

/-- Concrete instantiation of `favorites_cardIdx_safe`. -/
theorem favorites_cardIdx_safe_witness :
    favoritesCardIdx 2 25 = .ok (25 - ((2 - 1) * 20 + 1))
    ∧ 25 - ((2 - 1) * 20 + 1) ≤ 19 :=
  ⟨(favorites_cardIdx_safe 2 25 (by decide)).2.1,
   (favorites_cardIdx_safe 2 25 (by decide)).2.2⟩

/-- C1 (code evaluated at the failing input): stage 4 is a known stage of
the corpus (the loader accepts stages 1..21) and the entry (4, 61) satisfies
the block-of-20 rule of the specification, yet the working-list filter of
the favorites view rejects every stage above 3, so a registry holding
exactly (4, 61) yields an empty favorites working list. -/
theorem favoriteCards_drops_stage_four :
    validBlockSpec 4 61 = true
    ∧ loadVocabularyStage sampleCorpus 4 "es" = .ok (sampleCorpus 4 "es")
    ∧ (4, 61) ∈ getAll [(4, 61)]
    ∧ validBlock 4 61 = false
    ∧ favoriteCards [(4, 61)] = [] := by
  refine ⟨by decide, rfl, by simp [getAll], rfl, rfl⟩

/-- C2 (code evaluated at the failing input): with `dir=en-to-es` the stage
cards view derives the English→Spanish direction, but the favorites view
computes its current card with Spanish→English regardless, so the pair it
displays differs from the pair the direction-respecting computation of the
specification returns. -/
theorem favoritesCurrentCard_ignores_direction :
    direction (some "en-to-es") = LearningDirection.EnglishToSpanish
    ∧ favoritesCurrentCard sampleCorpus [(1, 1)] 0 = .ok (1, sampleEs, sampleEn)
    ∧ favoritesCurrentCardSpec sampleCorpus [(1, 1)] 0 (direction (some "en-to-es"))
        = .ok (1, sampleEn, sampleEs)
    ∧ favoritesCurrentCard sampleCorpus [(1, 1)] 0
        ≠ favoritesCurrentCardSpec sampleCorpus [(1, 1)] 0 (direction (some "en-to-es")) := by
  have h2 : favoritesCurrentCard sampleCorpus [(1, 1)] 0 = .ok (1, sampleEs, sampleEn) := rfl
  have h3 : favoritesCurrentCardSpec sampleCorpus [(1, 1)] 0 (direction (some "en-to-es"))
      = .ok (1, sampleEn, sampleEs) := rfl
  refine ⟨rfl, h2, h3, ?_⟩
  rw [h2, h3]
  intro h
  have hq := Except.ok.inj h
  exact absurd hq (by decide)

/-- C7: toggling favorite on the currently displayed card removes it from
the registry; afterwards, if the working list became empty the index is 0
and the empty-state pane is shown, if the old index reached past the new
list it is clamped to the new length − 1, otherwise it is kept, and both
reveal flags are cleared — for every working list and every valid index. -/
theorem toggleFavoriteStep_spec (favs : List (Nat × Nat)) (j : Nat) (e t : Bool)
    (hj : j < (favoriteCards favs).length) :
    ((favoriteCards favs).get ⟨j, hj⟩ ∉ (toggleFavoriteStep ⟨favs, j, e, t⟩).favs)
    ∧ ((favoriteCards (toggleFavoriteStep ⟨favs, j, e, t⟩).favs).length = 0 →
        (toggleFavoriteStep ⟨favs, j, e, t⟩).index = 0
        ∧ favoritesEmptyPane (toggleFavoriteStep ⟨favs, j, e, t⟩).favs = true)
    ∧ (0 < (favoriteCards (toggleFavoriteStep ⟨favs, j, e, t⟩).favs).length →
        (favoriteCards (toggleFavoriteStep ⟨favs, j, e, t⟩).favs).length ≤ j →
        (toggleFavoriteStep ⟨favs, j, e, t⟩).index
          = (favoriteCards (toggleFavoriteStep ⟨favs, j, e, t⟩).favs).length - 1)
    ∧ (0 < (favoriteCards (toggleFavoriteStep ⟨favs, j, e, t⟩).favs).length →
        j < (favoriteCards (toggleFavoriteStep ⟨favs, j, e, t⟩).favs).length →
        (toggleFavoriteStep ⟨favs, j, e, t⟩).index = j)
    ∧ (toggleFavoriteStep ⟨favs, j, e, t⟩).showExample = false
    ∧ (toggleFavoriteStep ⟨favs, j, e, t⟩).showTranslation = false := by
  set c := (favoriteCards favs).get ⟨j, hj⟩ with hc
  have hsome : (favoriteCards favs)[j]? = some c := by
    rw [List.getElem?_eq_getElem hj]
    simp [hc, List.get_eq_getElem]
  have hcmem : c ∈ favs := by
    have hmem : c ∈ favoriteCards favs := by
      rw [hc]
      exact List.get_mem _ _ _
    exact ((mem_favoriteCards favs c).mp hmem).1
  have hstep : toggleFavoriteStep ⟨favs, j, e, t⟩ =
      ⟨toggle favs c.1 c.2,
        if (favoriteCards (toggle favs c.1 c.2)).length = 0 then 0
        else if (favoriteCards (toggle favs c.1 c.2)).length ≤ j then
          (favoriteCards (toggle favs c.1 c.2)).length - 1
        else j,
        false, false⟩ := by
    simp only [toggleFavoriteStep]
    rw [hsome]
  rw [hstep]
  dsimp only
  refine ⟨?_, ?_, ?_, ?_, rfl, rfl⟩
  · rw [mem_toggle]
    simp [Prod.mk.eta, hcmem]
  · intro h0
    rw [if_pos h0]
    refine ⟨rfl, ?_⟩
    simp [favoritesEmptyPane, List.length_eq_zero.mp h0]
  · intro hpos hle
    rw [if_neg (by omega), if_pos hle]
  · intro hpos hlt
    rw [if_neg (by omega), if_neg (by omega)]

/-- Concrete instantiation of `toggleFavoriteStep_spec`. -/
theorem toggleFavoriteStep_spec_witness :
    (1, 5) ∉ (toggleFavoriteStep ⟨[(1, 5)], 0, true, true⟩).favs
    ∧ (toggleFavoriteStep ⟨[(1, 5)], 0, true, true⟩).index = 0
    ∧ favoritesEmptyPane (toggleFavoriteStep ⟨[(1, 5)], 0, true, true⟩).favs = true := by
  have h := toggleFavoriteStep_spec [(1, 5)] 0 true true (by decide)
  exact ⟨h.1, (h.2.1 (by decide)).1, (h.2.1 (by decide)).2⟩

end Vamos
